import Mathlib

/-!
Verification of the Linear A statistical-controls scoring and validation
engine.  The development shallowly embeds the scoring pipeline of
`LINEAR_A_STATISTICAL_CONTROLS.py` (together with the variant scorers of
`LINEAR_A_CONTROL_VALIDATION.py` and the Bayesian convergence engine of
`LINEAR_A_CROSS_DOMAIN_CONVERGENCE.py`) into Lean, using exact rational
arithmetic for the floating-point computations of the source and explicit
streams for the pseudo-random draws of Python's `random` module.
-/

namespace LinearA

/-- Vowel percentage distribution over the fixed alphabet `a, i, u, e, o`
(a `"vowels"` dict of the source; every profile defines all five keys). -/
structure VowelDist where
  a : ℚ
  i : ℚ
  u : ℚ
  e : ℚ
  o : ℚ
deriving DecidableEq

/-- Dict-style access `dist.get(v, 0)` for the five fixed vowel keys. -/
def VowelDist.get (d : VowelDist) (v : String) : ℚ :=
  if v = "a" then d.a
  else if v = "i" then d.i
  else if v = "u" then d.u
  else if v = "e" then d.e
  else if v = "o" then d.o
  else 0

/-- Access at key `"a"` yields the `a` field. -/
lemma VowelDist.get_a (d : VowelDist) : d.get "a" = d.a := by
  simp [VowelDist.get]

/-- Access at key `"i"` yields the `i` field. -/
lemma VowelDist.get_i (d : VowelDist) : d.get "i" = d.i := by
  simp [VowelDist.get]

/-- Access at key `"u"` yields the `u` field. -/
lemma VowelDist.get_u (d : VowelDist) : d.get "u" = d.u := by
  simp [VowelDist.get]

/-- Access at key `"e"` yields the `e` field. -/
lemma VowelDist.get_e (d : VowelDist) : d.get "e" = d.e := by
  simp [VowelDist.get]

/-- Access at key `"o"` yields the `o` field. -/
lemma VowelDist.get_o (d : VowelDist) : d.get "o" = d.o := by
  simp [VowelDist.get]

/-- One candidate language-family profile: an entry of the
`LANGUAGE_FAMILIES` table.  Python dicts preserving insertion order are
modelled as association lists.  `hattusha_vowels` is `None` or a (nonempty)
dict in the source, hence an `Option`. -/
structure FamilyData where
  vowels : VowelDist
  hattusha_vowels : Option VowelDist
  features : List (String × Bool)
  case_similarity : List (String × ℚ)
  vocabulary_matches : List (String × ℚ)
  geographic_plausibility : ℚ
  timeline_fit : ℚ
  scholarly_support : ℚ
  religious_parallel : ℚ

/-- Dict lookup `m.get(k)`: `some` value when the key is present, `none`
otherwise. -/
def lookup {α : Type} (m : List (String × α)) (k : String) : Option α :=
  (m.find? (fun p => p.1 == k)).map Prod.snd

/-- The target vowel distribution `LINEAR_A["vowels"]`
(43.3, 20.6, 17.5, 14.4, 4.1). -/
def LINEAR_A_vowels : VowelDist :=
  ⟨433/10, 206/10, 175/10, 144/10, 41/10⟩

/-- The fixed 14-entry target feature map `LINEAR_A["features"]`. -/
def LINEAR_A_features : List (String × Bool) :=
  [("agglutinative", true), ("sov_order", true), ("rich_case_system", true),
   ("no_grammatical_gender", true), ("possessive_enclitics", true),
   ("essive_case", true), ("no_voice_distinction", true),
   ("no_aspiration", true), ("verb_suffix_chain", true),
   ("ergative_alignment", true), ("3_vowel_system", true),
   ("prenasalized_stops", true), ("derivational_infixing", true),
   ("transitivity_vowel", true)]

/-- KL-divergence-inspired distance between vowel distributions
(`vowel_distance`).  The base-2 logarithm the source takes from `math.log2`
is passed in as a parameter `log2`: every theorem below holds for an
arbitrary `log2`, so in particular for the real logarithm the floating-point
code approximates. -/
def vowel_distance (log2 : ℚ → ℚ) (target reference : VowelDist) : ℚ :=
  ["a", "i", "u", "e", "o"].foldl
    (fun dist v =>
      let t := target.get v / 100
      let r := reference.get v / 100
      if 0 < t ∧ 0 < r then dist + t * log2 (t / r) else dist)
    0

/-- The vowel score a single reference distribution would yield:
`min(100, max(0, 100 - vowel_distance(LINEAR_A_vowels, d) * 500))`. -/
def vowel_score_of (log2 : ℚ → ℚ) (d : VowelDist) : ℚ :=
  min 100 (max 0 (100 - vowel_distance log2 LINEAR_A_vowels d * 500))

/-- Vowel-system dimension score (`score_vowels`).  The source computes
`best_vowels = family_data.get("hattusha_vowels") or family_data["vowels"]`:
since a present alternate dict in the data is nonempty (hence truthy), this
is exactly `Option.getD`. -/
def score_vowels (log2 : ℚ → ℚ) (fd : FamilyData) : ℚ :=
  vowel_score_of log2 (fd.hattusha_vowels.getD fd.vowels)

/-- Count of target features whose candidate value equals the target value
(the `matches` counter of `score_features`; a missing candidate key yields
`none ≠ some v`, a non-match). -/
def feature_match_count (fd : FamilyData) : ℕ :=
  (LINEAR_A_features.filter
    (fun p => lookup fd.features p.1 == some p.2)).length

/-- Structural-feature dimension score (`score_features`):
`(matches / total) * 100` over the fixed target feature map. -/
def score_features (fd : FamilyData) : ℚ :=
  ((feature_match_count fd : ℚ) / (LINEAR_A_features.length : ℚ)) * 100

/-- Case-suffix dimension score (`score_cases`): mean of the candidate's
`case_similarity` values. -/
def score_cases (fd : FamilyData) : ℚ :=
  (fd.case_similarity.map Prod.snd).sum / (fd.case_similarity.length : ℚ)

/-- Vocabulary dimension score (`score_vocabulary`): mean of the candidate's
`vocabulary_matches` values. -/
def score_vocabulary (fd : FamilyData) : ℚ :=
  (fd.vocabulary_matches.map Prod.snd).sum /
    (fd.vocabulary_matches.length : ℚ)

/-- Full multi-dimensional scoring pipeline (`score_family`): the labelled
eight-dimension score map and the unweighted overall mean. -/
def score_family (log2 : ℚ → ℚ) (fd : FamilyData) :
    List (String × ℚ) × ℚ :=
  let scores : List (String × ℚ) :=
    [("Vowel system", score_vowels log2 fd),
     ("Structural features", score_features fd),
     ("Case system", score_cases fd),
     ("Vocabulary", score_vocabulary fd),
     ("Geographic", fd.geographic_plausibility),
     ("Timeline", fd.timeline_fit),
     ("Scholarly support", fd.scholarly_support),
     ("Religious parallel", fd.religious_parallel)]
  (scores, (scores.map Prod.snd).sum / (scores.length : ℚ))

/-- The Hurro-Urartian profile of the `LANGUAGE_FAMILIES` table, used as a
concrete witness input. -/
def hurroUrartian : FamilyData :=
  { vowels := ⟨30, 22, 20, 18, 10⟩
    hattusha_vowels := some ⟨38, 25, 22, 10, 5⟩
    features :=
      [("agglutinative", true), ("sov_order", true),
       ("rich_case_system", true), ("no_grammatical_gender", true),
       ("possessive_enclitics", true), ("essive_case", true),
       ("no_voice_distinction", true), ("no_aspiration", true),
       ("verb_suffix_chain", true), ("ergative_alignment", true),
       ("3_vowel_system", true), ("prenasalized_stops", false),
       ("derivational_infixing", true), ("transitivity_vowel", true)]
    case_similarity :=
      [("-E", 100), ("-ME", 95), ("-TI", 85), ("-NA", 85), ("-SI", 50),
       ("-JA", 45)]
    vocabulary_matches :=
      [("A-TA-I", 95), ("SA-SA-RA", 80), ("DA-KU-NA", 85),
       ("I-DA-MA-TE", 80), ("DU-PU2-RE", 65), ("U-NA-KA-NA-SI", 75),
       ("KU-RO", 25), ("I-PI-NA-MA", 0), ("SI-RU-TE", 0)]
    geographic_plausibility := 80
    timeline_fit := 75
    scholarly_support := 70
    religious_parallel := 84 }

/-- Mean of a nonempty list of values in `[0,100]` lies in `[0,100]`. -/
lemma mean_mem_bounds (l : List ℚ) (hne : l ≠ [])
    (h : ∀ x ∈ l, 0 ≤ x ∧ x ≤ 100) :
    0 ≤ l.sum / (l.length : ℚ) ∧ l.sum / (l.length : ℚ) ≤ 100 := by
  have hlen : 0 < (l.length : ℚ) := by
    exact_mod_cast List.length_pos.mpr hne
  constructor
  · exact div_nonneg (List.sum_nonneg fun x hx => (h x hx).1) hlen.le
  · rw [div_le_iff₀ hlen]
    calc l.sum ≤ l.length • (100 : ℚ) :=
          List.sum_le_card_nsmul l 100 fun x hx => (h x hx).2
      _ = 100 * l.length := by rw [nsmul_eq_mul]; ring

/-- The clamped vowel score of any single distribution lies in `[0,100]`,
whatever the logarithm and the divergence work out to. -/
lemma vowel_score_of_mem_bounds (log2 : ℚ → ℚ) (d : VowelDist) :
    0 ≤ vowel_score_of log2 d ∧ vowel_score_of log2 d ≤ 100 := by
  unfold vowel_score_of
  exact ⟨le_min (by norm_num) (le_max_left 0 _), min_le_left _ _⟩

/-- The feature match counter never exceeds the number of target features. -/
lemma feature_match_count_le (fd : FamilyData) :
    feature_match_count fd ≤ 14 := by
  have h := List.length_filter_le
    (fun p => lookup fd.features p.1 == some p.2) LINEAR_A_features
  simpa [LINEAR_A_features] using h

/-- The feature-overlap score lies in `[0,100]`. -/
lemma score_features_mem_bounds (fd : FamilyData) :
    0 ≤ score_features fd ∧ score_features fd ≤ 100 := by
  have h14 : (LINEAR_A_features.length : ℚ) = 14 := by
    norm_num [LINEAR_A_features]
  unfold score_features
  rw [h14]
  constructor
  · positivity
  · have h1 : (feature_match_count fd : ℚ) / 14 ≤ 1 := by
      rw [div_le_one (by norm_num)]
      exact_mod_cast feature_match_count_le fd
    calc (feature_match_count fd : ℚ) / 14 * 100 ≤ 1 * 100 :=
          mul_le_mul_of_nonneg_right h1 (by norm_num)
      _ = 100 := by norm_num

/-- C1.  For every candidate profile whose stored numeric entries (case
similarities, vocabulary matches, and the four contextual scalars) lie in
`[0,100]`, every individual dimension score of the pipeline and the
unweighted overall mean returned by `score_family` lie in `[0,100]`. -/
theorem C1_all_scores_within_0_100 (log2 : ℚ → ℚ) (fd : FamilyData)
    (hc : ∀ p ∈ fd.case_similarity, 0 ≤ p.2 ∧ p.2 ≤ 100)
    (hcne : fd.case_similarity ≠ [])
    (hv : ∀ p ∈ fd.vocabulary_matches, 0 ≤ p.2 ∧ p.2 ≤ 100)
    (hvne : fd.vocabulary_matches ≠ [])
    (hg : 0 ≤ fd.geographic_plausibility ∧ fd.geographic_plausibility ≤ 100)
    (ht : 0 ≤ fd.timeline_fit ∧ fd.timeline_fit ≤ 100)
    (hs : 0 ≤ fd.scholarly_support ∧ fd.scholarly_support ≤ 100)
    (hr : 0 ≤ fd.religious_parallel ∧ fd.religious_parallel ≤ 100) :
    (∀ p ∈ (score_family log2 fd).1, 0 ≤ p.2 ∧ p.2 ≤ 100) ∧
      0 ≤ (score_family log2 fd).2 ∧ (score_family log2 fd).2 ≤ 100 := by
  have hvow : 0 ≤ score_vowels log2 fd ∧ score_vowels log2 fd ≤ 100 :=
    vowel_score_of_mem_bounds log2 _
  have hfeat := score_features_mem_bounds fd
  have hcase : 0 ≤ score_cases fd ∧ score_cases fd ≤ 100 := by
    have h := mean_mem_bounds (fd.case_similarity.map Prod.snd)
      (by simpa using hcne)
      (by
        intro x hx
        obtain ⟨p, hp, rfl⟩ := List.mem_map.mp hx
        exact hc p hp)
    unfold score_cases
    rw [show (fd.case_similarity.length : ℚ) =
        ((fd.case_similarity.map Prod.snd).length : ℚ) by
      rw [List.length_map]]
    exact h
  have hvoc : 0 ≤ score_vocabulary fd ∧ score_vocabulary fd ≤ 100 := by
    have h := mean_mem_bounds (fd.vocabulary_matches.map Prod.snd)
      (by simpa using hvne)
      (by
        intro x hx
        obtain ⟨p, hp, rfl⟩ := List.mem_map.mp hx
        exact hv p hp)
    unfold score_vocabulary
    rw [show (fd.vocabulary_matches.length : ℚ) =
        ((fd.vocabulary_matches.map Prod.snd).length : ℚ) by
      rw [List.length_map]]
    exact h
  constructor
  · intro p hp
    simp only [score_family, List.mem_cons, List.not_mem_nil, or_false] at hp
    rcases hp with h | h | h | h | h | h | h | h <;> subst h
    · exact hvow
    · exact hfeat
    · exact hcase
    · exact hvoc
    · exact hg
    · exact ht
    · exact hs
    · exact hr
  · have hsum : (score_family log2 fd).2 =
        (score_vowels log2 fd + score_features fd + score_cases fd +
          score_vocabulary fd + fd.geographic_plausibility +
          fd.timeline_fit + fd.scholarly_support +
          fd.religious_parallel) / 8 := by
      simp [score_family]
      ring
    rw [hsum]
    obtain ⟨a1, a2⟩ := hvow
    obtain ⟨b1, b2⟩ := hfeat
    obtain ⟨c1, c2⟩ := hcase
    obtain ⟨d1, d2⟩ := hvoc
    obtain ⟨e1, e2⟩ := hg
    obtain ⟨f1, f2⟩ := ht
    obtain ⟨g1, g2⟩ := hs
    obtain ⟨i1, i2⟩ := hr
    constructor
    · positivity
    · rw [div_le_iff₀ (by norm_num : (0:ℚ) < 8)]
      linarith

/-- Witness for C1 at the Hurro-Urartian profile. -/
theorem C1_witness :
    (∀ p ∈ (score_family (fun _ => 0) hurroUrartian).1,
        0 ≤ p.2 ∧ p.2 ≤ 100) ∧
      0 ≤ (score_family (fun _ => 0) hurroUrartian).2 ∧
        (score_family (fun _ => 0) hurroUrartian).2 ≤ 100 :=
  C1_all_scores_within_0_100 (fun _ => 0) hurroUrartian
    (by decide) (by decide) (by decide) (by decide)
    (by decide) (by decide) (by decide) (by decide)

/-- Sign-faithful stand-in for `math.log2` used to instantiate the `log2`
parameter at concrete inputs: negative below 1, zero at 1, positive above 1,
exactly like the real base-2 logarithm. -/
def log2_step (q : ℚ) : ℚ :=
  if q < 1 then -1 else if q = 1 then 0 else 1

/-- A candidate profile whose main vowel distribution equals the target
exactly (divergence 0, vowel score 100) while its alternate (Hattusha-style)
distribution is uniform and far from the target (vowel score 0). -/
def identicalMainFarAlt : FamilyData :=
  { vowels := LINEAR_A_vowels
    hattusha_vowels := some ⟨20, 20, 20, 20, 20⟩
    features := []
    case_similarity := []
    vocabulary_matches := []
    geographic_plausibility := 0
    timeline_fit := 0
    scholarly_support := 0
    religious_parallel := 0 }

/-- Counterexample to C2.  On a profile whose main distribution is identical
to the target and whose alternate distribution is far from it, the scorer
returns the alternate's score 0, not the best-case maximum 100 of the two
scores: the code takes `hattusha_vowels or vowels` unconditionally, it never
compares the two divergences. -/
theorem C2_counterexample :
    score_vowels log2_step identicalMainFarAlt = 0 ∧
      max (vowel_score_of log2_step ⟨20, 20, 20, 20, 20⟩)
        (vowel_score_of log2_step identicalMainFarAlt.vowels) = 100 ∧
      score_vowels log2_step identicalMainFarAlt ≠
        max (vowel_score_of log2_step ⟨20, 20, 20, 20, 20⟩)
          (vowel_score_of log2_step identicalMainFarAlt.vowels) := by
  have h1 : vowel_distance log2_step LINEAR_A_vowels ⟨20, 20, 20, 20, 20⟩ =
      279/1000 := by
    simp only [vowel_distance, List.foldl_cons, List.foldl_nil,
      VowelDist.get_a, VowelDist.get_i, VowelDist.get_u, VowelDist.get_e,
      VowelDist.get_o, LINEAR_A_vowels]
    norm_num [log2_step]
  have h2 : vowel_distance log2_step LINEAR_A_vowels LINEAR_A_vowels = 0 := by
    simp only [vowel_distance, List.foldl_cons, List.foldl_nil,
      VowelDist.get_a, VowelDist.get_i, VowelDist.get_u, VowelDist.get_e,
      VowelDist.get_o, LINEAR_A_vowels]
    norm_num [log2_step]
  have h3 : identicalMainFarAlt.vowels = LINEAR_A_vowels := rfl
  have h4 : score_vowels log2_step identicalMainFarAlt =
      vowel_score_of log2_step ⟨20, 20, 20, 20, 20⟩ := rfl
  rw [h4, h3]
  unfold vowel_score_of
  rw [h1, h2]
  norm_num

/-- C2 (amended).  When a candidate exposes an alternate/regional variant
vowel distribution, the scorer uses that alternate unconditionally — it
never averages, but it also never compares: the main distribution is used
only when no alternate is present. -/
theorem C2_alternate_used_unconditionally (log2 : ℚ → ℚ) (fd : FamilyData)
    (d : VowelDist) (h : fd.hattusha_vowels = some d) :
    score_vowels log2 fd = vowel_score_of log2 d := by
  unfold score_vowels
  rw [h]
  rfl

/-- Witness for the amended C2 at the Hurro-Urartian profile. -/
theorem C2_witness :
    score_vowels log2_step hurroUrartian =
      vowel_score_of log2_step ⟨38, 25, 22, 10, 5⟩ :=
  C2_alternate_used_unconditionally log2_step hurroUrartian
    ⟨38, 25, 22, 10, 5⟩ rfl

/-- The filtered match counter saturates exactly when every target feature
matches. -/
lemma feature_match_count_eq_total_iff (fd : FamilyData) :
    feature_match_count fd = LINEAR_A_features.length ↔
      ∀ p ∈ LINEAR_A_features, lookup fd.features p.1 = some p.2 := by
  unfold feature_match_count
  constructor
  · intro h p hp
    have hself := (List.filter_sublist (l :=
      LINEAR_A_features)).eq_of_length h
    have := List.filter_eq_self.mp hself p hp
    exact beq_iff_eq.mp this
  · intro h
    rw [List.filter_eq_self.mpr]
    intro p hp
    exact beq_iff_eq.mpr (h p hp)

/-- C3.  The feature-overlap score equals `100 * k / n` where `n = 14` is
the size of the fixed target feature set and `k` counts the target features
whose candidate value exactly equals the target value (a missing key is a
non-match); in particular the score is 100 iff every target feature matches
exactly. -/
theorem C3_feature_score_is_100k_over_n (fd : FamilyData) :
    score_features fd =
      100 * (feature_match_count fd : ℚ) / (LINEAR_A_features.length : ℚ) ∧
      (score_features fd = 100 ↔
        ∀ p ∈ LINEAR_A_features, lookup fd.features p.1 = some p.2) := by
  have hlen : (LINEAR_A_features.length : ℚ) = 14 := by
    norm_num [LINEAR_A_features]
  constructor
  · unfold score_features
    rw [hlen]
    ring
  · unfold score_features
    rw [hlen]
    rw [div_mul_eq_mul_div, mul_comm,
      div_eq_iff (by norm_num : (14:ℚ) ≠ 0)]
    constructor
    · intro h
      have hq : (feature_match_count fd : ℚ) = 14 := by linarith
      have hn : feature_match_count fd = 14 := by exact_mod_cast hq
      exact (feature_match_count_eq_total_iff fd).mp
        (by rw [hn]; norm_num [LINEAR_A_features])
    · intro h
      have hn : feature_match_count fd = 14 := by
        have := (feature_match_count_eq_total_iff fd).mpr h
        rw [this]
        norm_num [LINEAR_A_features]
      rw [hn]
      norm_num

/-- A raw candidate profile dict as the scorers receive it: each top-level
section may be absent (a missing dict key). -/
structure RawFamilyData where
  features : Option (List (String × Bool))
  case_similarity : Option (List (String × ℚ))
  vocabulary_matches : Option (List (String × ℚ))

/-- The feature scorer over a raw dict: `family_data["features"]` raises a
`KeyError` when the key is missing, modelled as `Except.error`. -/
def score_features_raw (rd : RawFamilyData) : Except String ℚ :=
  match rd.features with
  | none => .error "KeyError: features"
  | some fs =>
    .ok (((LINEAR_A_features.filter
        (fun p => lookup fs p.1 == some p.2)).length : ℚ) /
      (LINEAR_A_features.length : ℚ) * 100)

/-- The case scorer over a raw dict: `family_data["case_similarity"]` raises
a `KeyError` when the key is missing. -/
def score_cases_raw (rd : RawFamilyData) : Except String ℚ :=
  match rd.case_similarity with
  | none => .error "KeyError: case_similarity"
  | some sims => .ok ((sims.map Prod.snd).sum / (sims.length : ℚ))

/-- The vocabulary scorer of `LINEAR_A_STATISTICAL_CONTROLS.py` over a raw
dict: `family_data["vocabulary_matches"]` raises a `KeyError` when the key
is missing. -/
def score_vocabulary_raw (rd : RawFamilyData) : Except String ℚ :=
  match rd.vocabulary_matches with
  | none => .error "KeyError: vocabulary_matches"
  | some m => .ok ((m.map Prod.snd).sum / (m.length : ℚ))

/-- The vocabulary scorer of `LINEAR_A_CONTROL_VALIDATION.py`
(`score_vocabulary_original`): `if "vocabulary_matches" in family_data`
return the mean of its values, otherwise `return 0` — no error is raised for
the missing top-level map. -/
def score_vocabulary_original (rd : RawFamilyData) : ℚ :=
  match rd.vocabulary_matches with
  | some m => (m.map Prod.snd).sum / (m.length : ℚ)
  | none => 0

/-- A profile whose `vocabulary_matches` top-level section is entirely
absent (the other sections are present). -/
def missingVocabProfile : RawFamilyData :=
  ⟨some hurroUrartian.features, some hurroUrartian.case_similarity, none⟩

/-- A profile whose vocabulary map is present but scores zero everywhere. -/
def zeroVocabProfile : RawFamilyData :=
  ⟨some hurroUrartian.features, some hurroUrartian.case_similarity,
   some [("A-TA-I", 0), ("SA-SA-RA", 0)]⟩

/-- Counterexample to C4.  A candidate with no vocabulary map at all is
silently scored 0 by `score_vocabulary_original` — exactly the same result
as a present all-zero vocabulary map, with no configuration error raised,
contradicting the fail-fast requirement. -/
theorem C4_counterexample :
    score_vocabulary_original missingVocabProfile = 0 ∧
      score_vocabulary_original zeroVocabProfile = 0 := by
  constructor
  · rfl
  · norm_num [score_vocabulary_original, zeroVocabProfile]

/-- C4 (amended).  In the statistical-controls pipeline a missing top-level
map makes the scorer fail fast with a `KeyError`-style lookup error (never a
silent 0); but the control-validation pipeline's `score_vocabulary_original`
silently returns a 0 score when the whole vocabulary map is missing. -/
theorem C4_missing_section_behavior :
    (∀ rd : RawFamilyData, rd.features = none →
      score_features_raw rd = .error "KeyError: features") ∧
    (∀ rd : RawFamilyData, rd.case_similarity = none →
      score_cases_raw rd = .error "KeyError: case_similarity") ∧
    (∀ rd : RawFamilyData, rd.vocabulary_matches = none →
      score_vocabulary_raw rd = .error "KeyError: vocabulary_matches") ∧
    (∀ rd : RawFamilyData, rd.vocabulary_matches = none →
      score_vocabulary_original rd = 0) := by
  refine ⟨?_, ?_, ?_, ?_⟩ <;>
    · intro rd h
      obtain ⟨f, c, v⟩ := rd
      simp only at h
      subst h
      rfl

/-- Witness for the amended C4 at concrete raw profiles. -/
theorem C4_witness :
    score_features_raw ⟨none, none, none⟩ = .error "KeyError: features" ∧
      score_vocabulary_original missingVocabProfile = 0 :=
  ⟨C4_missing_section_behavior.1 ⟨none, none, none⟩ rfl,
   C4_missing_section_behavior.2.2.2 missingVocabProfile rfl⟩

/-- One bootstrap index draw
(`indices = [random.randint(0, n_dims - 1) for _ in range(n_dims)]`).  The
`randint` outputs are modelled as a stream `r` of naturals reduced modulo
`nDims` to reflect randint's range contract; trial `t` consumes the stream
entries `t*nDims .. t*nDims + nDims - 1`, one draw per trial. -/
def bootstrap_draw (r : ℕ → ℕ) (nDims t : ℕ) : List ℕ :=
  (List.range nDims).map (fun j => r (t * nDims + j) % nDims)

/-- Resampled trial score of one candidate
(`resampled = [dims[i] for i in indices]; avg = sum(...) / len(...)`). -/
def resample_mean (dims : List ℚ) (indices : List ℕ) : ℚ :=
  ((indices.map (fun i => dims.getD i 0)).sum) / (indices.length : ℚ)

/-- Per-candidate dimension-score vector
(`family_dim_scores[fname] = list(scores.values())`). -/
def family_dim_scores (log2 : ℚ → ℚ) (fd : FamilyData) : List ℚ :=
  ((score_family log2 fd).1).map Prod.snd

/-- The trial loop of `run_bootstrap_test`: each of the `N` iterations draws
one index list and then appends, for every candidate, the mean of that
candidate's own dimension vector resampled at that same draw
(`bootstrap_scores[fname].append(avg)`). -/
def run_bootstrap_scores (r : ℕ → ℕ) (nDims N : ℕ)
    (famDims : List (String × List ℚ)) : List (String × List ℚ) :=
  (List.range N).foldl
    (fun acc t =>
      let indices := bootstrap_draw r nDims t
      acc.map (fun ns =>
        (ns.1,
         ns.2 ++ [resample_mean ((lookup famDims ns.1).getD []) indices])))
    (famDims.map (fun nd => (nd.1, ([] : List ℚ))))

/-- Confidence-interval bounds of `run_bootstrap_test`
(`scores = sorted(...); scores[int(0.025 * n)]`, `scores[int(0.975 * n)]`);
the `int` truncation of the nonnegative product is the floor, computed here
in exact arithmetic. -/
def ci_bounds (N : ℕ) (trials : List ℚ) : ℚ × ℚ :=
  let s := trials.insertionSort (· ≤ ·)
  (s.getD ⌊(25 : ℚ) / 1000 * (N : ℚ)⌋₊ 0,
   s.getD ⌊(975 : ℚ) / 1000 * (N : ℚ)⌋₊ 0)

/-- The bootstrap engine (`run_bootstrap_test`): trial scores via the trial
loop (with `n_dims` taken from the first candidate's dimension vector), then
the 95% interval bounds per candidate. -/
def run_bootstrap_test (log2 : ℚ → ℚ) (r : ℕ → ℕ) (N : ℕ)
    (fams : List (String × FamilyData)) :
    List (String × (List ℚ × ℚ × ℚ)) :=
  let famDims := fams.map (fun nf => (nf.1, family_dim_scores log2 nf.2))
  let nDims := ((famDims.headD ("", [])).2).length
  (run_bootstrap_scores r nDims N famDims).map
    (fun ns => (ns.1, (ns.2, ci_bounds N ns.2)))

/-- Claim-side description of the bootstrap report: for every candidate
independently, trial `t` is the mean of that candidate's own vector
resampled at the shared draw `bootstrap_draw r 8 t` (the same draw for
every candidate within one trial), and the interval bounds are the sorted
trial values at positions `⌊0.025*N⌋` and `⌊0.975*N⌋`. -/
def bootstrap_report_claim (log2 : ℚ → ℚ) (r : ℕ → ℕ) (N : ℕ)
    (fams : List (String × FamilyData)) :
    List (String × (List ℚ × ℚ × ℚ)) :=
  fams.map (fun nf =>
    let trials := (List.range N).map (fun t =>
      resample_mean (family_dim_scores log2 nf.2) (bootstrap_draw r 8 t))
    let s := trials.insertionSort (· ≤ ·)
    (nf.1, (trials, s.getD ⌊(25 : ℚ) / 1000 * (N : ℚ)⌋₊ 0,
      s.getD ⌊(975 : ℚ) / 1000 * (N : ℚ)⌋₊ 0)))

/-- Every candidate's dimension vector has the fixed length 8. -/
lemma family_dim_scores_length (log2 : ℚ → ℚ) (fd : FamilyData) :
    (family_dim_scores log2 fd).length = 8 := rfl

/-- Association-list lookup returns the stored value when keys are
duplicate-free. -/
lemma lookup_eq_of_mem_of_nodup {α : Type} (m : List (String × α))
    (k : String) (v : α) (hnd : (m.map Prod.fst).Nodup)
    (h : (k, v) ∈ m) : lookup m k = some v := by
  induction m with
  | nil => simp at h
  | cons p tl ih =>
    rw [List.map_cons, List.nodup_cons] at hnd
    rcases List.mem_cons.mp h with heq | htl
    · unfold lookup
      rw [← heq]
      simp
    · have hk : ¬(p.1 == k) := by
        simp only [beq_iff_eq]
        intro hkeq
        exact hnd.1 (hkeq ▸ List.mem_map.mpr ⟨(k, v), htl, rfl⟩)
      have hfind : List.find? (fun q => q.1 == k) (p :: tl) =
          List.find? (fun q => q.1 == k) tl :=
        List.find?_cons_of_neg tl hk
      unfold lookup
      rw [hfind]
      exact ih hnd.2 htl

/-- The iterative trial loop equals the per-candidate map description: every
candidate's trial list resamples its own vector at the shared per-trial
draws. -/
lemma run_bootstrap_scores_eq (r : ℕ → ℕ) (nDims : ℕ)
    (famDims : List (String × List ℚ))
    (hnd : (famDims.map Prod.fst).Nodup) (N : ℕ) :
    run_bootstrap_scores r nDims N famDims =
      famDims.map (fun nd => (nd.1, (List.range N).map
        (fun t => resample_mean nd.2 (bootstrap_draw r nDims t)))) := by
  induction N with
  | zero => simp [run_bootstrap_scores]
  | succ n ih =>
    unfold run_bootstrap_scores at ih ⊢
    rw [List.range_succ, List.foldl_append, ih, List.foldl_cons,
      List.foldl_nil, List.map_map]
    refine List.map_congr_left ?_
    intro nd hmem
    have hlk : lookup famDims nd.1 = some nd.2 :=
      lookup_eq_of_mem_of_nodup famDims nd.1 nd.2 hnd
        (by rcases nd with ⟨a, b⟩; exact hmem)
    simp only [Function.comp, hlk, Option.getD_some, List.range_succ,
      List.map_append, List.map_cons, List.map_nil]

/-- C5.  In every bootstrap trial one shared list of `D = 8` in-range
indices is drawn and applied to every candidate's own dimension-score
vector, the trial score being the mean of the resampled values; the
reported 95% bounds are the sorted per-candidate trial values at positions
`⌊0.025*N⌋` and `⌊0.975*N⌋`. -/
theorem C5_bootstrap_shared_draw_and_interval (log2 : ℚ → ℚ) (r : ℕ → ℕ)
    (N : ℕ) (fams : List (String × FamilyData)) (hne : fams ≠ [])
    (hnd : (fams.map Prod.fst).Nodup) :
    run_bootstrap_test log2 r N fams =
      bootstrap_report_claim log2 r N fams ∧
      ∀ t, (bootstrap_draw r 8 t).length = 8 ∧
        ∀ i ∈ bootstrap_draw r 8 t, i < 8 := by
  constructor
  · obtain ⟨nf, tl, rfl⟩ := List.exists_cons_of_ne_nil hne
    have hnd' : (((nf :: tl).map
        (fun nf => (nf.1, family_dim_scores log2 nf.2))).map
          Prod.fst).Nodup := by
      rw [List.map_map]
      exact hnd
    unfold run_bootstrap_test
    simp only [List.map_cons, List.headD_cons]
    rw [show ((nf.1, family_dim_scores log2 nf.2).2).length = 8 from
      family_dim_scores_length log2 nf.2]
    rw [run_bootstrap_scores_eq r 8 _ (by simpa using hnd') N]
    unfold bootstrap_report_claim
    simp only [List.map_map, List.map_cons]
    rfl
  · intro t
    constructor
    · simp [bootstrap_draw]
    · intro i hi
      obtain ⟨j, _, rfl⟩ := List.mem_map.mp hi
      exact Nat.mod_lt _ (by norm_num)

/-- Witness for C5 with one candidate, a constant stream and two trials. -/
theorem C5_witness :
    run_bootstrap_test (fun _ => 0) (fun _ => 0) 2
        [("Hurro-Urartian", hurroUrartian)] =
      bootstrap_report_claim (fun _ => 0) (fun _ => 0) 2
        [("Hurro-Urartian", hurroUrartian)] ∧
      ∀ t, (bootstrap_draw (fun _ => 0) 8 t).length = 8 ∧
        ∀ i ∈ bootstrap_draw (fun _ => 0) 8 t, i < 8 :=
  C5_bootstrap_shared_draw_and_interval (fun _ => 0) (fun _ => 0) 2
    [("Hurro-Urartian", hurroUrartian)] (by simp) (by simp)

/-- Number of boolean features selected for flipping at corruption rate
`perturb_pct` (`n_flip = int(len(feature_names) * perturb_pct)`): Python's
`int()` truncation of the nonnegative product, i.e. its floor, computed in
exact arithmetic (exact for every rate of the reference sweep). -/
def n_flip (feature_count : ℕ) (perturb_pct : ℚ) : ℕ :=
  ⌊(feature_count : ℚ) * perturb_pct⌋₊

/-- The index selection of one perturbation trial
(`flip_indices = random.sample(range(len(feature_names)), n_flip)`); the
sampler is passed explicitly, its contract being that `sample n k` picks `k`
distinct members of `range n`. -/
def perturbation_flip_selection (sample : ℕ → ℕ → List ℕ)
    (feature_names : List String) (perturb_pct : ℚ) : List ℕ :=
  sample feature_names.length (n_flip feature_names.length perturb_pct)

/-- The corruption-rate sweep
(`perturbation_levels = [0.10, 0.15, 0.20, 0.25, 0.30]`). -/
def perturbation_levels : List ℚ := [10/100, 15/100, 20/100, 25/100, 30/100]

/-- Dict assignment `p_features[feat] = b` on an existing key (the source
guards the write with `if feat in p_features`, so no key is ever added). -/
def set_feature (fs : List (String × Bool)) (k : String) (b : Bool) :
    List (String × Bool) :=
  fs.map (fun p => if p.1 = k then (p.1, b) else p)

/-- The feature-flipping loop of `run_perturbation_test`: for each sampled
index, negate the named feature when the candidate has it. -/
def flip_features (feature_names : List String) (flip_idxs : List ℕ)
    (fs : List (String × Bool)) : List (String × Bool) :=
  flip_idxs.foldl
    (fun acc idx =>
      let feat := feature_names.getD idx ""
      match lookup acc feat with
      | some b => set_feature acc feat (!b)
      | none => acc)
    fs

/-- Counterexample to C6.  At corruption rate 0.25 with the 14-feature list
the code selects `int(14 * 0.25) = int(3.5) = 3` features, not
`round(3.5) = 4` as the claim states. -/
theorem C6_counterexample :
    n_flip 14 (25/100) = 3 ∧ round ((14 : ℚ) * (25/100)) = 4 ∧
      (n_flip 14 (25/100) : ℤ) ≠ round ((14 : ℚ) * (25/100)) := by
  have h1 : n_flip 14 (25/100) = 3 := by
    unfold n_flip
    rw [show ((14 : ℕ) : ℚ) * (25/100) = 7/2 by norm_num]
    rw [Nat.floor_eq_iff (by norm_num)]
    norm_num
  have h2 : round ((14 : ℚ) * (25/100)) = 4 := by
    rw [round_eq]
    norm_num
  refine ⟨h1, h2, ?_⟩
  rw [h1, h2]
  norm_num

/-- C6 (amended).  In every perturbation trial the number of boolean
features selected for flipping equals `⌊r * feature_count⌋` (truncation,
not rounding); across the reference sweep over the 14-feature list this is
1, 2, 2, 3 and 4 features respectively. -/
theorem C6_flip_selection_count_is_floor (sample : ℕ → ℕ → List ℕ)
    (hs : ∀ n k, (sample n k).length = k) :
    (∀ r : ℚ, (perturbation_flip_selection sample
        (LINEAR_A_features.map Prod.fst) r).length = ⌊(14 : ℚ) * r⌋₊) ∧
      perturbation_levels.map (n_flip 14) = [1, 2, 2, 3, 4] := by
  constructor
  · intro r
    unfold perturbation_flip_selection n_flip
    rw [hs]
    norm_num [LINEAR_A_features]
  · unfold perturbation_levels n_flip
    simp only [List.map_cons, List.map_nil]
    rw [show ((14 : ℕ) : ℚ) * (10/100) = 7/5 by norm_num,
      show ((14 : ℕ) : ℚ) * (15/100) = 21/10 by norm_num,
      show ((14 : ℕ) : ℚ) * (20/100) = 14/5 by norm_num,
      show ((14 : ℕ) : ℚ) * (25/100) = 7/2 by norm_num,
      show ((14 : ℕ) : ℚ) * (30/100) = 21/5 by norm_num]
    have e1 : ⌊(7 : ℚ)/5⌋₊ = 1 := by
      rw [Nat.floor_eq_iff (by norm_num)]
      norm_num
    have e2 : ⌊(21 : ℚ)/10⌋₊ = 2 := by
      rw [Nat.floor_eq_iff (by norm_num)]
      norm_num
    have e3 : ⌊(14 : ℚ)/5⌋₊ = 2 := by
      rw [Nat.floor_eq_iff (by norm_num)]
      norm_num
    have e4 : ⌊(7 : ℚ)/2⌋₊ = 3 := by
      rw [Nat.floor_eq_iff (by norm_num)]
      norm_num
    have e5 : ⌊(21 : ℚ)/5⌋₊ = 4 := by
      rw [Nat.floor_eq_iff (by norm_num)]
      norm_num
    rw [e1, e2, e3, e4, e5]

/-- Witness for the amended C6 with a canonical sampler. -/
theorem C6_witness :
    (∀ r : ℚ, (perturbation_flip_selection (fun _ k => List.range k)
        (LINEAR_A_features.map Prod.fst) r).length = ⌊(14 : ℚ) * r⌋₊) ∧
      perturbation_levels.map (n_flip 14) = [1, 2, 2, 3, 4] :=
  C6_flip_selection_count_is_floor (fun _ k => List.range k)
    (fun _ k => List.length_range k)

/-- Character-bigram set of a word
(`set(w[i:i+2] for i in range(len(w)-1))`): the set of adjacent character
pairs, obtained by zipping the word with its own tail. -/
def char_bigrams (w : List Char) : Finset (Char × Char) :=
  (w.zip w.tail).toFinset

/-- The chance-control engine's phonetic similarity
(`phonetic_similarity`): 0 when either bigram set is empty, otherwise
`shared / max(len(bg1), len(bg2))` — shared bigrams over the larger set. -/
def phonetic_similarity (w1 w2 : List Char) : ℚ :=
  if char_bigrams w1 = ∅ ∨ char_bigrams w2 = ∅ then 0
  else ((char_bigrams w1 ∩ char_bigrams w2).card : ℚ) /
    ((max (char_bigrams w1).card (char_bigrams w2).card : ℕ) : ℚ)

/-- The Jaccard overlap of the two bigram sets, as the spec words it:
`|B1 ∩ B2| / |B1 ∪ B2|`, 0 when either set is empty. -/
def bigram_jaccard (w1 w2 : List Char) : ℚ :=
  if char_bigrams w1 = ∅ ∨ char_bigrams w2 = ∅ then 0
  else ((char_bigrams w1 ∩ char_bigrams w2).card : ℚ) /
    (((char_bigrams w1 ∪ char_bigrams w2).card : ℕ) : ℚ)

/-- Counterexample to C7.  For the words `abc` and `abd` the bigram sets are
`{ab, bc}` and `{ab, bd}`: the code returns `1 / max(2,2) = 1/2` while the
Jaccard overlap is `1/3`. -/
theorem C7_counterexample :
    phonetic_similarity ['a', 'b', 'c'] ['a', 'b', 'd'] = 1/2 ∧
      bigram_jaccard ['a', 'b', 'c'] ['a', 'b', 'd'] = 1/3 ∧
      phonetic_similarity ['a', 'b', 'c'] ['a', 'b', 'd'] ≠
        bigram_jaccard ['a', 'b', 'c'] ['a', 'b', 'd'] := by
  have hne : ¬(char_bigrams ['a', 'b', 'c'] = ∅ ∨
      char_bigrams ['a', 'b', 'd'] = ∅) := by decide
  have hcap : (char_bigrams ['a', 'b', 'c'] ∩
      char_bigrams ['a', 'b', 'd']).card = 1 := by decide
  have hcup : (char_bigrams ['a', 'b', 'c'] ∪
      char_bigrams ['a', 'b', 'd']).card = 3 := by decide
  have hc1 : (char_bigrams ['a', 'b', 'c']).card = 2 := by decide
  have hc2 : (char_bigrams ['a', 'b', 'd']).card = 2 := by decide
  unfold phonetic_similarity bigram_jaccard
  rw [if_neg hne, if_neg hne, hcap, hcup, hc1, hc2]
  norm_num

/-- C7 (amended).  The phonetic-similarity measure equals
`|B1 ∩ B2| / max(|B1|, |B2|)` — an overlap coefficient over the larger
bigram set, 0 when either set is empty — which always dominates the Jaccard
overlap `|B1 ∩ B2| / |B1 ∪ B2|` of the claim. -/
theorem C7_similarity_is_overlap_over_max (w1 w2 : List Char) :
    phonetic_similarity w1 w2 =
      (if char_bigrams w1 = ∅ ∨ char_bigrams w2 = ∅ then 0
       else ((char_bigrams w1 ∩ char_bigrams w2).card : ℚ) /
         ((max (char_bigrams w1).card (char_bigrams w2).card : ℕ) : ℚ)) ∧
      bigram_jaccard w1 w2 ≤ phonetic_similarity w1 w2 := by
  refine ⟨rfl, ?_⟩
  unfold phonetic_similarity bigram_jaccard
  by_cases h : char_bigrams w1 = ∅ ∨ char_bigrams w2 = ∅
  · rw [if_pos h, if_pos h]
  · rw [if_neg h, if_neg h]
    push_neg at h
    have hpos : 0 < max (char_bigrams w1).card (char_bigrams w2).card :=
      lt_max_of_lt_left (Finset.card_pos.mpr
        (Finset.nonempty_iff_ne_empty.mpr h.1))
    have hle : max (char_bigrams w1).card (char_bigrams w2).card ≤
        (char_bigrams w1 ∪ char_bigrams w2).card :=
      max_le (Finset.card_le_card Finset.subset_union_left)
        (Finset.card_le_card Finset.subset_union_right)
    have hposq : (0 : ℚ) <
        ((max (char_bigrams w1).card (char_bigrams w2).card : ℕ) : ℚ) := by
      exact_mod_cast hpos
    have hleq : ((max (char_bigrams w1).card (char_bigrams w2).card : ℕ) : ℚ)
        ≤ (((char_bigrams w1 ∪ char_bigrams w2).card : ℕ) : ℚ) := by
      exact_mod_cast hle
    gcongr

/-- Likelihood-ratio clamp of the Bayesian engine
(`lr_clamped = max(0.5, min(lr, 5.0))`). -/
def clamp_lr (lr : ℚ) : ℚ := max (1/2) (min lr 5)

/-- One update of `bayesian_convergence`: posterior to odds
(`odds = posterior / (1 - posterior)`), multiply by the clamped likelihood
ratio, convert back (`posterior = odds / (1 + odds)`). -/
def bayes_update (p lr : ℚ) : ℚ :=
  let odds := p / (1 - p) * clamp_lr lr
  odds / (1 + odds)

/-- The Bayesian convergence engine (`bayesian_convergence`): sequential
fold of the per-domain updates over the ordered domain list, each entry
carrying `(name, (score, lr))` with only `lr` used by the update; the
source fixes `prior = 0.10`, kept as a parameter here. -/
def bayesian_convergence (prior : ℚ)
    (domains : List (String × ℚ × ℚ)) : ℚ :=
  domains.foldl (fun posterior d => bayes_update posterior d.2.2) prior

/-- The clamped likelihood ratio is at least `1/2`, hence positive. -/
lemma clamp_lr_pos (lr : ℚ) : 0 < clamp_lr lr :=
  lt_max_of_lt_left (by norm_num)

/-- One update keeps the posterior strictly inside `(0,1)`. -/
lemma bayes_update_mem (p lr : ℚ) (h0 : 0 < p) (h1 : p < 1) :
    0 < bayes_update p lr ∧ bayes_update p lr < 1 := by
  unfold bayes_update
  have hL : 0 < clamp_lr lr := clamp_lr_pos lr
  have h1p : 0 < 1 - p := by linarith
  have hodds : 0 < p / (1 - p) * clamp_lr lr := by positivity
  constructor
  · exact div_pos hodds (by linarith)
  · rw [div_lt_one (by linarith)]
    linarith

/-- Closed form of one update over the odds:
`p ↦ p*L / ((1-p) + p*L)`. -/
lemma bayes_update_eq (p lr : ℚ) (h0 : 0 < p) (h1 : p < 1) :
    bayes_update p lr =
      p * clamp_lr lr / ((1 - p) + p * clamp_lr lr) := by
  unfold bayes_update
  have h1p : 0 < 1 - p := by linarith
  have hL : 0 < clamp_lr lr := clamp_lr_pos lr
  have hd1 : (1 : ℚ) - p ≠ 0 := ne_of_gt h1p
  have hd2 : 1 + p / (1 - p) * clamp_lr lr ≠ 0 := by
    have : 0 < p / (1 - p) * clamp_lr lr := by positivity
    positivity
  have hd3 : (1 - p) + p * clamp_lr lr ≠ 0 := by positivity
  field_simp

/-- The chained engine equals the single odds-product form
`p*Π / ((1-p) + p*Π)` with `Π` the product of the clamped ratios. -/
lemma bayesian_convergence_closed_form (domains : List (String × ℚ × ℚ)) :
    ∀ p : ℚ, 0 < p → p < 1 →
      bayesian_convergence p domains =
        p * (domains.map (fun d => clamp_lr d.2.2)).prod /
          ((1 - p) + p * (domains.map (fun d => clamp_lr d.2.2)).prod) := by
  induction domains with
  | nil =>
    intro p h0 h1
    have : (1 : ℚ) - p + p ≠ 0 := by norm_num
    simp [bayesian_convergence]
  | cons d tl ih =>
    intro p h0 h1
    have hmem := bayes_update_mem p d.2.2 h0 h1
    have hstep : bayesian_convergence p (d :: tl) =
        bayesian_convergence (bayes_update p d.2.2) tl := rfl
    rw [hstep, ih (bayes_update p d.2.2) hmem.1 hmem.2,
      bayes_update_eq p d.2.2 h0 h1]
    have h1p : 0 < 1 - p := by linarith
    have hL : 0 < clamp_lr d.2.2 := clamp_lr_pos d.2.2
    have hP : 0 < (tl.map (fun d => clamp_lr d.2.2)).prod := by
      apply List.prod_pos
      intro a ha
      obtain ⟨q, _, rfl⟩ := List.mem_map.mp ha
      exact clamp_lr_pos q.2.2
    have hD : (0 : ℚ) < (1 - p) + p * clamp_lr d.2.2 := by positivity
    rw [List.map_cons, List.prod_cons]
    have hDne : ((1 : ℚ) - p) + p * clamp_lr d.2.2 ≠ 0 := ne_of_gt hD
    have hnum : (1 : ℚ) -
        p * clamp_lr d.2.2 / ((1 - p) + p * clamp_lr d.2.2) =
        (1 - p) / ((1 - p) + p * clamp_lr d.2.2) := by
      field_simp
    rw [hnum]
    have hden2 : (0 : ℚ) < (1 - p) +
        p * (clamp_lr d.2.2 * (tl.map (fun d => clamp_lr d.2.2)).prod) := by
      positivity
    field_simp
    ring

/-- C8.  Starting from any prior strictly inside `(0,1)`, the posterior
remains strictly inside `(0,1)` after every single update, no matter how
many domains are chained: every prefix of the domain list yields a
posterior in `(0,1)`. -/
theorem C8_posterior_stays_in_open_interval (prior : ℚ)
    (domains : List (String × ℚ × ℚ)) (h0 : 0 < prior) (h1 : prior < 1) :
    ∀ k : ℕ, 0 < bayesian_convergence prior (domains.take k) ∧
      bayesian_convergence prior (domains.take k) < 1 := by
  have main : ∀ (l : List (String × ℚ × ℚ)) (p : ℚ), 0 < p → p < 1 →
      0 < bayesian_convergence p l ∧ bayesian_convergence p l < 1 := by
    intro l
    induction l with
    | nil =>
      intro p hp0 hp1
      exact ⟨hp0, hp1⟩
    | cons d tl ih =>
      intro p hp0 hp1
      have hmem := bayes_update_mem p d.2.2 hp0 hp1
      exact ih (bayes_update p d.2.2) hmem.1 hmem.2
  intro k
  exact main (domains.take k) prior h0 h1

/-- Witness for C8 at the source's prior `0.10`, two concrete domains and
the first intermediate posterior. -/
theorem C8_witness :
    0 < bayesian_convergence (1/10)
        ([("Pre-Greek substrate", (60, 2)),
          ("Religious continuity", (80, 3))].take 1) ∧
      bayesian_convergence (1/10)
        ([("Pre-Greek substrate", (60, 2)),
          ("Religious continuity", (80, 3))].take 1) < 1 :=
  C8_posterior_stays_in_open_interval (1/10)
    [("Pre-Greek substrate", (60, 2)), ("Religious continuity", (80, 3))]
    (by norm_num) (by norm_num) 1

/-- C9.  For every prior strictly inside `(0,1)` the final posterior is
invariant under any permutation of the domain list: the sequential
odds-multiplication commutes. -/
theorem C9_posterior_invariant_under_permutation (prior : ℚ)
    (h0 : 0 < prior) (h1 : prior < 1)
    (l1 l2 : List (String × ℚ × ℚ)) (hperm : l1.Perm l2) :
    bayesian_convergence prior l1 = bayesian_convergence prior l2 := by
  rw [bayesian_convergence_closed_form l1 prior h0 h1,
    bayesian_convergence_closed_form l2 prior h0 h1,
    (hperm.map (fun d => clamp_lr d.2.2)).prod_eq]

/-- Witness for C9: swapping two concrete domains leaves the posterior
unchanged. -/
theorem C9_witness :
    bayesian_convergence (1/10)
        [("Pre-Greek substrate", (60, 2)), ("Religious continuity", (80, 3))]
      = bayesian_convergence (1/10)
        [("Religious continuity", (80, 3)),
         ("Pre-Greek substrate", (60, 2))] :=
  C9_posterior_invariant_under_permutation (1/10) (by norm_num) (by norm_num)
    _ _ (List.Perm.swap ("Religious continuity", (80, 3))
      ("Pre-Greek substrate", (60, 2)) [])

/-- Clamp a perturbed value back into `[0,100]`
(`max(0, min(100, v + noise))`). -/
def clamp_0_100 (x : ℚ) : ℚ := max 0 (min 100 x)

/-- One candidate's corruption step of `run_perturbation_test`: flip the
sampled boolean features, then add noise of scale `10*r` to every
vocabulary value and `15*r` to every case value, clamped into `[0,100]`.
The `random.sample` call is the explicit `sample` function and the standard
Gaussian draws of `random.gauss` are the stream `noise`, scaled by the
source's `10*r` / `15*r`; `ctx` indexes the consuming call so that distinct
draws read distinct stream positions. -/
def perturb_family (sample : ℕ → ℕ → ℕ → List ℕ) (noise : ℕ → ℚ)
    (ctx : ℕ) (r : ℚ) (fd : FamilyData) : FamilyData :=
  let feature_names := LINEAR_A_features.map Prod.fst
  let flip_idxs :=
    sample ctx feature_names.length (n_flip feature_names.length r)
  { fd with
    features := flip_features feature_names flip_idxs fd.features
    vocabulary_matches := fd.vocabulary_matches.enum.map
      (fun ip => (ip.2.1,
        clamp_0_100 (ip.2.2 + 10 * r * noise (ctx * 64 + ip.1))))
    case_similarity := fd.case_similarity.enum.map
      (fun ip => (ip.2.1,
        clamp_0_100 (ip.2.2 + 15 * r * noise (ctx * 64 + 32 + ip.1)))) }

/-- The top-ranked candidate
(`sorted(scores.items(), key=..., reverse=True)[0][0]`). -/
def winner (scores : List (String × ℚ)) : String :=
  ((scores.insertionSort (fun a b => b.2 ≤ a.2)).headD ("", 0)).1

/-- One perturbation trial: corrupt every candidate independently and
re-score all of them. -/
def run_perturbation_trial (log2 : ℚ → ℚ) (sample : ℕ → ℕ → ℕ → List ℕ)
    (noise : ℕ → ℚ) (t : ℕ) (r : ℚ)
    (fams : List (String × FamilyData)) : List (String × ℚ) :=
  fams.enum.map (fun inf =>
    (inf.2.1, (score_family log2
      (perturb_family sample noise (t * fams.length + inf.1) r
        inf.2.2)).2))

/-- The perturbation engine (`run_perturbation_test`): for every corruption
rate of the sweep, run `n_trials` trials and report the leader's mean score
and win rate (`win_pct = wins / n_trials * 100`). -/
def run_perturbation_test (log2 : ℚ → ℚ) (sample : ℕ → ℕ → ℕ → List ℕ)
    (noise : ℕ → ℚ) (n_trials : ℕ)
    (fams : List (String × FamilyData)) : List (ℚ × (ℚ × ℚ)) :=
  perturbation_levels.map (fun r =>
    let trials := (List.range n_trials).map
      (fun t => run_perturbation_trial log2 sample noise t r fams)
    let hscores := trials.map
      (fun sc => (lookup sc "Hurro-Urartian").getD 0)
    let wins := (trials.filter
      (fun sc => winner sc == "Hurro-Urartian")).length
    (r, (hscores.sum / (hscores.length : ℚ),
      (wins : ℚ) / (n_trials : ℚ) * 100)))

/-- The Linear A syllabary consonant inventory of `run_lexical_control`
(the empty string stands for a bare-vowel syllable). -/
def consonants : List (List Char) :=
  [[], ['d'], ['j'], ['k'], ['m'], ['n'], ['p'], ['q'], ['r'], ['s'],
   ['t'], ['w'], ['z']]

/-- The vowel inventory (`vowels_list`). -/
def vowels_list : List Char := ['a', 'i', 'u', 'e', 'o']

/-- The Hurrian comparison lexicon (`hurrian_words`). -/
def hurrian_words : List (List Char) :=
  ["attai", "sarri", "une", "tani", "ame", "ebri", "enni", "asti", "neri",
   "kelu", "arni", "tahe", "sena", "puru", "hawu", "tiwi", "kumme",
   "allai", "hurri", "simiki"].map String.toList

/-- The actual Linear A word list (`la_words`). -/
def la_words : List (List Char) :=
  ["atai", "sasara", "dakuna", "idamate", "dupure", "unakanas", "kuro",
   "ipinama", "sirute"].map String.toList

/-- Pseudo-word generator (`generate_pseudo_word`): 2–5 syllables
(`random.randint(2,5)`, modelled as `2 + rn ctx % 4`), each an optional
consonant (`random.choice`) plus a vowel (`random.choices` with the target's
vowel weights); the choice calls are stream-determined index selections —
the weights shape the distribution of the stream, not the engine's
structure. -/
def generate_pseudo_word (rn rc rv : ℕ → ℕ) (ctx : ℕ) : List Char :=
  let n_syl := 2 + rn ctx % 4
  (List.range n_syl).foldl
    (fun w j =>
      w ++ consonants.getD (rc (ctx * 8 + j) % consonants.length) [] ++
        [vowels_list.getD (rv (ctx * 8 + j) % vowels_list.length) 'a'])
    []

/-- Best phonetic match of one word against the Hurrian lexicon
(`max(phonetic_similarity(w, h) for h in hurrian_words)`; similarities are
nonnegative, so folding `max` from 0 over the nonempty lexicon agrees with
Python's `max`). -/
def best_similarity (w : List Char) : ℚ :=
  (hurrian_words.map (phonetic_similarity w)).foldl max 0

/-- Mean best-match similarity of a word list. -/
def mean_best_similarity (ws : List (List Char)) : ℚ :=
  (ws.map best_similarity).sum / (ws.length : ℚ)

/-- The chance-control engine (`run_lexical_control`): the real word list's
mean similarity, the mean over `n_pseudo` pseudo-lexicons of the same size,
and the empirical p-value
(`sum(1 for p in pseudo_means if p >= actual_mean) / n_pseudo`). -/
def run_lexical_control (rn rc rv : ℕ → ℕ) (n_pseudo : ℕ) : ℚ × ℚ × ℚ :=
  let actual_mean := mean_best_similarity la_words
  let pseudo_means := (List.range n_pseudo).map (fun i =>
    mean_best_similarity ((List.range la_words.length).map
      (fun j => generate_pseudo_word rn rc rv (i * 16 + j))))
  let pseudo_avg := pseudo_means.sum / (pseudo_means.length : ℚ)
  let p_value := ((pseudo_means.filter
    (fun pm => actual_mean ≤ pm)).length : ℚ) / (n_pseudo : ℚ)
  (actual_mean, pseudo_avg, p_value)

/-- C10.  The three randomized engines consume nothing but their explicit
inputs and the pseudo-random streams derived from the seed (the embedding
of Python's globally seeded Mersenne Twister): two runs over equal streams
and equal inputs produce identical reports — trial scores, confidence
intervals, win rates and p-values alike. -/
theorem C10_engines_reproducible (log2a log2b : ℚ → ℚ) (ra rb : ℕ → ℕ)
    (sa sb : ℕ → ℕ → ℕ → List ℕ) (na nb : ℕ → ℚ)
    (rna rnb rca rcb rva rvb : ℕ → ℕ) (N T M : ℕ)
    (famsa famsb : List (String × FamilyData))
    (hlog : log2a = log2b) (hr : ra = rb) (hs : sa = sb) (hn : na = nb)
    (hrn : rna = rnb) (hrc : rca = rcb) (hrv : rva = rvb)
    (hfams : famsa = famsb) :
    run_bootstrap_test log2a ra N famsa =
        run_bootstrap_test log2b rb N famsb ∧
      run_perturbation_test log2a sa na T famsa =
        run_perturbation_test log2b sb nb T famsb ∧
      run_lexical_control rna rca rva M =
        run_lexical_control rnb rcb rvb M := by
  subst hlog hr hs hn hrn hrc hrv hfams
  exact ⟨rfl, rfl, rfl⟩

/-- Witness for C10 at concrete streams, trial counts and profiles. -/
theorem C10_witness :
    run_bootstrap_test (fun _ => 0) (fun i => i) 3
        [("Hurro-Urartian", hurroUrartian)] =
      run_bootstrap_test (fun _ => 0) (fun i => i) 3
        [("Hurro-Urartian", hurroUrartian)] ∧
      run_perturbation_test (fun _ => 0) (fun _ _ k => List.range k)
          (fun _ => 1) 2 [("Hurro-Urartian", hurroUrartian)] =
        run_perturbation_test (fun _ => 0) (fun _ _ k => List.range k)
          (fun _ => 1) 2 [("Hurro-Urartian", hurroUrartian)] ∧
      run_lexical_control (fun i => i) (fun i => i) (fun i => i) 2 =
        run_lexical_control (fun i => i) (fun i => i) (fun i => i) 2 :=
  C10_engines_reproducible (fun _ => 0) (fun _ => 0) (fun i => i)
    (fun i => i) (fun _ _ k => List.range k) (fun _ _ k => List.range k)
    (fun _ => 1) (fun _ => 1) (fun i => i) (fun i => i) (fun i => i)
    (fun i => i) (fun i => i) (fun i => i) 3 2 2
    [("Hurro-Urartian", hurroUrartian)] [("Hurro-Urartian", hurroUrartian)]
    rfl rfl rfl rfl rfl rfl rfl rfl

end LinearA
